import Mathlib

/-!
Shallow embedding of the GitGold ledger core
(`crates/gitgold-ledger/src/store.rs` and
`crates/gitgold-ledger/src/transaction.rs`).

Machine integers (`u64` amounts, `i64` timestamps) are modelled as
`Nat` / `Int`; byte vectors as `List Nat`; addresses and hex blobs as
`String`.  The SQLite `transactions` table is modelled as the list of
its rows in `rowid` order.  The SHA-256 and Ed25519 primitives live in
`gitgold-crypto`, outside the embedded sources; `Ledger.append` only
consults their results, so they are passed in as an abstract `Crypto`
record of functions.
-/

/-- Modelled from the spec: `TransactionType` is declared in
`gitgold-core` (not among the given sources); the spec lists its eight
variants. -/
inductive TransactionType where
  | Mint
  | Burn
  | Transfer
  | PushFee
  | PullFee
  | StorageReward
  | ChallengeReward
  | BandwidthReward
deriving DecidableEq, Repr

/-- Modelled from the spec: `Address::system()` is the reserved literal
address string. -/
def systemAddr : String := "system"

/-- Modelled from the spec: `LedgerError` is declared in `gitgold-core`;
the spec lists its kinds, and `store.rs` shows the payloads of
`Database`, `DuplicateTransaction` and `InvalidTransaction`. -/
inductive LedgerError where
  | Database (msg : String)
  | InvalidSignature
  | DuplicateTransaction (tx_id : String)
  | InsufficientBalance
  | SupplyCapExceeded
  | InvalidTransaction (msg : String)
  | Corrupt
deriving DecidableEq, Repr

/-- A transaction on the GitGold ledger (`transaction.rs`).  The
`metadata` field (a `serde_json::Value` in the source) is represented
by its canonical JSON text, which is exactly what `Display`, the
signable preimage and the database column use. -/
structure Transaction where
  tx_id : String
  tx_type : TransactionType
  fromAddr : String
  toAddr : String
  amount : Nat
  metadata : String
  timestamp : Int
  signature : String
  pubkey : String
deriving DecidableEq, Repr

/-- The bytes that should be signed (`Transaction::signable_bytes`):
the UTF-8 bytes of the concatenation of `tx_id`, `from`, `to`,
`amount` (decimal), `timestamp` (decimal), `metadata` (JSON text) and
`pubkey`.  UTF-8 encoding is injective, so the preimage is represented
by the string itself.  Note that `tx_type` does not occur. -/
def Transaction.signable_bytes (tx : Transaction) : String :=
  tx.tx_id ++ tx.fromAddr ++ tx.toAddr ++ toString tx.amount ++
    toString tx.timestamp ++ tx.metadata ++ tx.pubkey

/-- SHA-256 hash of the signable bytes (`Transaction::hash`), relative
to an arbitrary model `sha` of the SHA-256 compression. -/
def Transaction.hash (sha : String → List Nat) (tx : Transaction) : List Nat :=
  sha tx.signable_bytes

/-- Value of one hex digit, as accepted by `hex::decode`. -/
def hexVal (ch : Char) : Option Nat :=
  if '0' ≤ ch ∧ ch ≤ '9' then some (ch.toNat - 48)
  else if 'a' ≤ ch ∧ ch ≤ 'f' then some (ch.toNat - 87)
  else if 'A' ≤ ch ∧ ch ≤ 'F' then some (ch.toNat - 55)
  else none

/-- Decoding of a hex character list: pairs of digits become bytes;
an odd length or a non-hex character fails (as `hex::decode` does). -/
def hexDecodeChars : List Char → Option (List Nat)
  | [] => some []
  | [_] => none
  | a :: b :: rest =>
    match hexVal a, hexVal b, hexDecodeChars rest with
    | some ha, some hb, some tl => some ((16 * ha + hb) :: tl)
    | _, _, _ => none

/-- Model of `hex::decode` on strings. -/
def hexDecode (s : String) : Option (List Nat) :=
  hexDecodeChars s.data

/-- Abstract interface to `gitgold-crypto`: `sha256_hex` (hex digest of
SHA-256 over bytes) and `PublicKey::verify` (Ed25519 verification of a
message under a public key).  `Ledger.append` uses only their results. -/
structure Crypto where
  sha256Hex : List Nat → String
  edVerify : List Nat → String → List Nat → Bool

/-- Modelled from the spec: `BalanceTracker` (crate `gitgold-ledger`,
module `balance`, not among the given sources) keeps the map from
address to non-negative micro-unit balance.  It is represented as an
association list updated at the first occurrence of a key. -/
structure BalanceTracker where
  entries : List (String × Nat)
deriving DecidableEq, Repr

/-- First-occurrence lookup in the balance entries; absent keys read 0. -/
def lookupBal : List (String × Nat) → String → Nat
  | [], _ => 0
  | (k, w) :: rest, a => if k = a then w else lookupBal rest a

/-- Overwrite the first occurrence of key `a` with value `v`, appending
the pair when `a` is absent. -/
def setBal : List (String × Nat) → String → Nat → List (String × Nat)
  | [], a, v => [(a, v)]
  | (k, w) :: rest, a, v =>
    if k = a then (a, v) :: rest else (k, w) :: setBal rest a v

/-- Modelled from the spec: `BalanceTracker::new` starts empty. -/
def BalanceTracker.new : BalanceTracker := ⟨[]⟩

/-- Modelled from the spec: balance of an address (0 when unseen). -/
def BalanceTracker.balance (b : BalanceTracker) (a : String) : Nat :=
  lookupBal b.entries a

/-- Modelled from the spec: credit never fails. -/
def BalanceTracker.credit (b : BalanceTracker) (a : String) (amt : Nat) :
    BalanceTracker :=
  ⟨setBal b.entries a (b.balance a + amt)⟩

/-- Modelled from the spec: a debit that would leave a balance negative
fails with `InsufficientBalance`. -/
def BalanceTracker.debit (b : BalanceTracker) (a : String) (amt : Nat) :
    Except LedgerError BalanceTracker :=
  if b.balance a < amt then .error .InsufficientBalance
  else .ok ⟨setBal b.entries a (b.balance a - amt)⟩

/-- Modelled from the spec: transfer debits the sender, then credits
the recipient; it fails exactly when the debit does. -/
def BalanceTracker.transfer (b : BalanceTracker) (src dst : String)
    (amt : Nat) : Except LedgerError BalanceTracker :=
  match b.debit src amt with
  | .error e => .error e
  | .ok b' => .ok (b'.credit dst amt)

/-- Sum of all recorded balances. -/
def BalanceTracker.totalBalance (b : BalanceTracker) : Nat :=
  (b.entries.map (fun p => p.2)).sum

/-- Modelled from the spec: `SupplyTracker` (crate `gitgold-ledger`,
module `supply`, not among the given sources) tracks total minted and
total burned micro-units against a supply cap. -/
structure SupplyTracker where
  total_minted : Nat
  total_burned : Nat
  supply_cap : Nat
deriving DecidableEq, Repr

/-- Modelled from the spec: the concrete default cap value is not given
by src/ or the spec; no claim depends on its value. -/
def defaultSupplyCap : Nat := 10 ^ 18

/-- Modelled from the spec: `SupplyTracker::default_config` starts with
zero minted and burned under the default cap. -/
def SupplyTracker.default_config : SupplyTracker :=
  ⟨0, 0, defaultSupplyCap⟩

/-- Modelled from the spec: minting beyond the supply cap fails with
`SupplyCapExceeded` (in `store.rs` the call site is fallible). -/
def SupplyTracker.mint (s : SupplyTracker) (amt : Nat) :
    Except LedgerError SupplyTracker :=
  if s.supply_cap < s.total_minted + amt then .error .SupplyCapExceeded
  else .ok { s with total_minted := s.total_minted + amt }

/-- Modelled from the spec: burning is infallible (in `store.rs` the
call site is not fallible). -/
def SupplyTracker.burn (s : SupplyTracker) (amt : Nat) : SupplyTracker :=
  { s with total_burned := s.total_burned + amt }

/-- Modelled from the spec: serde serializes `TransactionType` as its
lowercase variant name (the `tx_type` column text). -/
def TransactionType.toLowerName : TransactionType → String
  | .Mint => "mint"
  | .Burn => "burn"
  | .Transfer => "transfer"
  | .PushFee => "pushfee"
  | .PullFee => "pullfee"
  | .StorageReward => "storagereward"
  | .ChallengeReward => "challengereward"
  | .BandwidthReward => "bandwidthreward"

/-- Modelled from the spec: serde deserialization of a `tx_type` text,
the partial inverse of `TransactionType.toLowerName`. -/
def parseTxType (s : String) : Option TransactionType :=
  if s = "mint" then some .Mint
  else if s = "burn" then some .Burn
  else if s = "transfer" then some .Transfer
  else if s = "pushfee" then some .PushFee
  else if s = "pullfee" then some .PullFee
  else if s = "storagereward" then some .StorageReward
  else if s = "challengereward" then some .ChallengeReward
  else if s = "bandwidthreward" then some .BandwidthReward
  else none

/-- One row of the SQLite `transactions` table (`store.rs` schema);
rows are kept in `rowid` order. -/
structure Row where
  tx_id : String
  tx_type_str : String
  from_addr : String
  to_addr : String
  amount : Nat
  metadata : String
  timestamp : Int
  signature : String
  pubkey : String
deriving DecidableEq, Repr

/-- The row `Ledger::append` inserts for a transaction. -/
def encodeRow (tx : Transaction) : Row :=
  { tx_id := tx.tx_id
    tx_type_str := tx.tx_type.toLowerName
    from_addr := tx.fromAddr
    to_addr := tx.toAddr
    amount := tx.amount
    metadata := tx.metadata
    timestamp := tx.timestamp
    signature := tx.signature
    pubkey := tx.pubkey }

/-- The transaction `Ledger::load_all_txs` builds from a row.  As in
the source, a `tx_type` text that fails to parse is silently replaced
by `TransactionType::Transfer` (`unwrap_or`), and the other columns are
taken verbatim. -/
def decodeRow (r : Row) : Transaction :=
  { tx_id := r.tx_id
    tx_type := (parseTxType r.tx_type_str).getD .Transfer
    fromAddr := r.from_addr
    toAddr := r.to_addr
    amount := r.amount
    metadata := r.metadata
    timestamp := r.timestamp
    signature := r.signature
    pubkey := r.pubkey }

/-- In-memory ledger plus the persisted table (`struct Ledger` in
`store.rs`: `conn`, `balances`, `supply`, `tx_ids`).  The `rows` field
stands for the contents of the SQLite connection. -/
structure Ledger where
  balances : BalanceTracker
  supply : SupplyTracker
  tx_ids : List String
  rows : List Row
deriving DecidableEq, Repr

/-- The state `Ledger::init` starts from: fresh trackers on top of
whatever rows the database holds. -/
def Ledger.fresh (rows : List Row) : Ledger :=
  { balances := .new
    supply := .default_config
    tx_ids := []
    rows := rows }

/-- A brand new empty ledger (no rows on disk). -/
def Ledger.empty : Ledger := Ledger.fresh []

/-- Model of `Ledger::load_all_txs`: decode every row in `rowid`
order. -/
def Ledger.load_all_txs (rows : List Row) : List Transaction :=
  rows.map decodeRow

/-- Model of `Ledger::apply_tx`: apply one transaction's effects to
balances and supply (never to `tx_ids` or the table). -/
def Ledger.apply_tx (st : Ledger) (tx : Transaction) :
    Except LedgerError Ledger :=
  match tx.tx_type with
  | .Mint =>
    match st.supply.mint tx.amount with
    | .error e => .error e
    | .ok s =>
      .ok { st with supply := s,
                    balances := st.balances.credit tx.toAddr tx.amount }
  | .Burn =>
    match st.balances.debit tx.fromAddr tx.amount with
    | .error e => .error e
    | .ok b =>
      .ok { st with balances := b, supply := st.supply.burn tx.amount }
  | .Transfer | .PushFee | .PullFee | .StorageReward | .ChallengeReward
  | .BandwidthReward =>
    if tx.fromAddr = systemAddr then
      match st.supply.mint tx.amount with
      | .error e => .error e
      | .ok s =>
        .ok { st with supply := s,
                      balances := st.balances.credit tx.toAddr tx.amount }
    else
      match st.balances.transfer tx.fromAddr tx.toAddr tx.amount with
      | .error e => .error e
      | .ok b => .ok { st with balances := b }

/-- The loop body of `Ledger::replay`: apply each transaction, then
record its `tx_id`. -/
def Ledger.replayAux (st : Ledger) : List Transaction →
    Except LedgerError Ledger
  | [] => .ok st
  | tx :: rest =>
    match st.apply_tx tx with
    | .error e => .error e
    | .ok st' =>
      Ledger.replayAux { st' with tx_ids := st'.tx_ids ++ [tx.tx_id] } rest

/-- Model of `Ledger::replay`. -/
def Ledger.replay (st : Ledger) : Except LedgerError Ledger :=
  st.replayAux (Ledger.load_all_txs st.rows)

/-- Model of `Ledger::open` / `Ledger::init` on a database that already
holds `rows`: fresh in-memory trackers, then a full replay. -/
def Ledger.openDb (rows : List Row) : Except LedgerError Ledger :=
  (Ledger.fresh rows).replay

/-- The signature-verification prefix of `Ledger::append` (its first
block): skipped for the system address; otherwise the pubkey hex is
decoded, its SHA-256 hex digest compared with `from`, the signature hex
decoded, and the Ed25519 signature verified over the signable bytes. -/
def Ledger.sigCheck (c : Crypto) (tx : Transaction) :
    Except LedgerError Unit :=
  if tx.fromAddr = systemAddr then .ok ()
  else
    match hexDecode tx.pubkey with
    | none => .error (.InvalidTransaction "Invalid hex in pubkey")
    | some pb =>
      if c.sha256Hex pb ≠ tx.fromAddr then .error .InvalidSignature
      else
        match hexDecode tx.signature with
        | none => .error (.InvalidTransaction "Invalid hex in signature")
        | some sb =>
          if c.edVerify pb tx.signable_bytes sb then .ok ()
          else .error .InvalidSignature

/-- Model of `Ledger::append`.  `persistFails` models the outcome of
the SQLite `INSERT`; the pair returned is (the in-memory state the
`&mut self` borrow leaves behind, the `Result`).  As in the source, the
effects applied by `apply_tx` are NOT undone when the insert fails, and
`tx_ids` is only extended after a successful insert. -/
def Ledger.append (c : Crypto) (persistFails : Bool) (st : Ledger)
    (tx : Transaction) : Ledger × Except LedgerError Unit :=
  match Ledger.sigCheck c tx with
  | .error e => (st, .error e)
  | .ok _ =>
    if tx.tx_id ∈ st.tx_ids then
      (st, .error (.DuplicateTransaction tx.tx_id))
    else
      match st.apply_tx tx with
      | .error e => (st, .error e)
      | .ok st' =>
        if persistFails then (st', .error (.Database "insert failed"))
        else
          ({ st' with rows := st'.rows ++ [encodeRow tx],
                      tx_ids := st'.tx_ids ++ [tx.tx_id] },
           .ok ())

/-- A run of `Ledger.append` calls that are all required to succeed
(with the insert succeeding); `none` when any call fails. -/
def Ledger.appendStar (c : Crypto) (st : Ledger) :
    List Transaction → Option Ledger
  | [] => some st
  | tx :: rest =>
    match Ledger.append c false st tx with
    | (st', .ok _) => Ledger.appendStar c st' rest
    | (_, .error _) => none

/-- A run of `Ledger.append` calls whose results are ignored: the state
after the calls, whether each succeeded or failed (each step carries
its own insert outcome). -/
def Ledger.runAppends (c : Crypto) (st : Ledger) :
    List (Transaction × Bool) → Ledger
  | [] => st
  | (tx, pf) :: rest =>
    Ledger.runAppends c (Ledger.append c pf st tx).1 rest

example : Ledger.openDb [] = .ok Ledger.empty := rfl

example : hexDecode "" = some [] := rfl

example : hexDecode "0aFf" = some [10, 255] := rfl

example : hexDecode "zz" = none := rfl

example : hexDecode "abc" = none := rfl

/-! ### The supply invariant -/

/-- The spec's supply equation: total minted minus total burned equals
the sum of all balances (stated over the integers). -/
def supplyInv (st : Ledger) : Prop :=
  (st.supply.total_minted : ℤ) - (st.supply.total_burned : ℤ)
    = (st.balances.totalBalance : ℤ)

/-- Replace the persisted rows of a ledger state. -/
def Ledger.setRows (st : Ledger) (rows : List Row) : Ledger :=
  { st with rows := rows }

/-- The invariant behind replay invariance: the current in-memory state
is exactly what reopening the current database contents rebuilds. -/
def replayInv (st : Ledger) : Prop :=
  Ledger.openDb st.rows = .ok st

/-! ### apply_tx branch lemmas -/

/-- The six transaction types handled by the shared Transfer arm of
`apply_tx`: everything except Mint and Burn. -/
def TransactionType.isTransferLike : TransactionType → Bool
  | .Transfer | .PushFee | .PullFee | .StorageReward | .ChallengeReward
  | .BandwidthReward => true
  | .Mint | .Burn => false

/-! ### Concrete data used by the witnesses and counterexamples -/

/-- A test crypto oracle under which every signature verifies and every
pubkey hashes to the address string "alice". -/
def cAlice : Crypto :=
  { sha256Hex := fun _ => "alice", edVerify := fun _ _ _ => true }

/-- A five-micro-unit system mint to alice. -/
def mintTx5 : Transaction :=
  { tx_id := "t1", tx_type := .Mint, fromAddr := "system", toAddr := "alice",
    amount := 5, metadata := "\x7b\x7d", timestamp := 0, signature := "",
    pubkey := "" }

/-- A second mint reusing the tx_id of `mintTx5`. -/
def mintTx5b : Transaction := { mintTx5 with amount := 9 }

/-- The ledger after successfully appending `mintTx5` to the empty
ledger. -/
def stMint5 : Ledger := (Ledger.append cAlice false Ledger.empty mintTx5).1

/-- A 500,000 micro-unit system mint to alice. -/
def mint500k : Transaction :=
  { tx_id := "m1", tx_type := .Mint, fromAddr := "system", toAddr := "alice",
    amount := 500000, metadata := "\x7b\x7d", timestamp := 0, signature := "",
    pubkey := "" }

/-- A 300,000 micro-unit transfer from alice to bob. -/
def transferBob : Transaction :=
  { tx_id := "x1", tx_type := .Transfer, fromAddr := "alice", toAddr := "bob",
    amount := 300000, metadata := "\x7b\x7d", timestamp := 0, signature := "",
    pubkey := "" }

/-- A 300,000 micro-unit transfer from alice to charlie. -/
def transferCharlie : Transaction :=
  { tx_id := "x2", tx_type := .Transfer, fromAddr := "alice",
    toAddr := "charlie", amount := 300000, metadata := "\x7b\x7d",
    timestamp := 0, signature := "", pubkey := "" }

/-- The ledger after minting 500,000 to alice. -/
def st500 : Ledger := (Ledger.append cAlice false Ledger.empty mint500k).1

/-- The ledger after alice additionally transferred 300,000 to bob. -/
def st200 : Ledger := (Ledger.append cAlice false st500 transferBob).1

/-- A seven-micro-unit challenge reward from the system address. -/
def rewardTx : Transaction :=
  { tx_id := "r1", tx_type := .ChallengeReward, fromAddr := "system",
    toAddr := "alice", amount := 7, metadata := "\x7b\x7d", timestamp := 0,
    signature := "", pubkey := "" }

/-- The ledger after appending `rewardTx` to the empty ledger. -/
def stReward : Ledger := (Ledger.append cAlice false Ledger.empty rewardTx).1

/-- A non-system transaction whose signature field is not valid hex but
whose pubkey field is ("" decodes to zero bytes). -/
def txSigNotHex : Transaction :=
  { tx_id := "c9", tx_type := .Transfer, fromAddr := "x", toAddr := "y",
    amount := 1, metadata := "\x7b\x7d", timestamp := 0, signature := "zz",
    pubkey := "" }

/-- A non-system transaction whose pubkey field is not valid hex. -/
def txPubNotHex : Transaction :=
  { tx_id := "c9b", tx_type := .Transfer, fromAddr := "alice", toAddr := "y",
    amount := 1, metadata := "\x7b\x7d", timestamp := 0, signature := "",
    pubkey := "zz" }

/-- A non-system transaction whose pubkey hex is valid but hashes to a
different address, and whose Ed25519 verification would fail. -/
def txBadSig : Transaction :=
  { tx_id := "c5", tx_type := .Transfer, fromAddr := "mallory",
    toAddr := "y", amount := 1, metadata := "\x7b\x7d", timestamp := 0,
    signature := "", pubkey := "" }

/-- A persisted row whose `tx_type` column holds text that does not
deserialize to any `TransactionType`. -/
def bogusRow : Row :=
  { tx_id := "b1", tx_type_str := "bogus", from_addr := "system",
    to_addr := "alice", amount := 5, metadata := "\x7b\x7d", timestamp := 0,
    signature := "", pubkey := "" }

/-- The state `Ledger::open` actually builds from a database holding
only `bogusRow`: the row is silently replayed as a system Transfer. -/
def stBogus : Ledger :=
  { balances := ⟨[("alice", 5)]⟩
    supply := { total_minted := 5, total_burned := 0,
                supply_cap := defaultSupplyCap }
    tx_ids := ["b1"]
    rows := [bogusRow] }

/-- The mint transaction of `mintTx5` with its type changed to Burn,
all other fields equal. -/
def mintTx5AsBurn : Transaction := { mintTx5 with tx_type := .Burn }

/-! ### Association-list lemmas for the balance tracker -/

theorem lookup_setBal_self (l : List (String × Nat)) (a : String) (v : Nat) :
    lookupBal (setBal l a v) a = v := by
  induction l with
  | nil => simp [setBal, lookupBal]
  | cons p rest ih =>
    obtain ⟨k, w⟩ := p
    by_cases h : k = a
    · simp [setBal, h, lookupBal]
    · simp [setBal, h, lookupBal, ih]

theorem lookup_setBal_ne (l : List (String × Nat)) (a : String) (v : Nat)
    (b : String) (hb : b ≠ a) :
    lookupBal (setBal l a v) b = lookupBal l b := by
  induction l with
  | nil =>
    simp only [setBal, lookupBal]
    rw [if_neg (fun h2 : a = b => hb h2.symm)]
  | cons p rest ih =>
    obtain ⟨k, w⟩ := p
    simp only [setBal]
    by_cases h : k = a
    · rw [if_pos h]
      simp only [lookupBal]
      rw [if_neg (fun h2 : a = b => hb h2.symm),
        if_neg (fun h2 : k = b => hb (h.symm.trans h2).symm)]
    · rw [if_neg h]
      simp only [lookupBal]
      by_cases h2 : k = b
      · rw [if_pos h2, if_pos h2]
      · rw [if_neg h2, if_neg h2, ih]

theorem sum_setBal (l : List (String × Nat)) (a : String) (v : Nat) :
    ((setBal l a v).map (fun p => p.2)).sum + lookupBal l a
      = (l.map (fun p => p.2)).sum + v := by
  induction l with
  | nil => simp [setBal, lookupBal]
  | cons p rest ih =>
    obtain ⟨k, w⟩ := p
    by_cases h : k = a
    · simp [setBal, h, lookupBal]
      omega
    · simp [setBal, h, lookupBal]
      omega

theorem lookup_le_sum (l : List (String × Nat)) (a : String) :
    lookupBal l a ≤ (l.map (fun p => p.2)).sum := by
  induction l with
  | nil => simp [lookupBal]
  | cons p rest ih =>
    obtain ⟨k, w⟩ := p
    by_cases h : k = a <;> simp [lookupBal, h] <;> omega

/-! ### BalanceTracker lemmas -/

theorem balance_credit_self (b : BalanceTracker) (a : String) (amt : Nat) :
    (b.credit a amt).balance a = b.balance a + amt := by
  simp [BalanceTracker.credit, BalanceTracker.balance, lookup_setBal_self]

theorem balance_credit_ne (b : BalanceTracker) (a x : String) (amt : Nat)
    (hx : x ≠ a) : (b.credit a amt).balance x = b.balance x := by
  simp [BalanceTracker.credit, BalanceTracker.balance, lookup_setBal_ne _ _ _ _ hx]

theorem totalBalance_credit (b : BalanceTracker) (a : String) (amt : Nat) :
    (b.credit a amt).totalBalance = b.totalBalance + amt := by
  have h := sum_setBal b.entries a (b.balance a + amt)
  simp only [BalanceTracker.credit, BalanceTracker.totalBalance,
    BalanceTracker.balance] at *
  omega

theorem debit_error (b : BalanceTracker) (a : String) (amt : Nat)
    (h : b.balance a < amt) :
    b.debit a amt = .error .InsufficientBalance := by
  simp [BalanceTracker.debit, h]

theorem debit_ok (b : BalanceTracker) (a : String) (amt : Nat) (b' : BalanceTracker)
    (h : b.debit a amt = .ok b') :
    amt ≤ b.balance a ∧
    b'.balance a + amt = b.balance a ∧
    (∀ x, x ≠ a → b'.balance x = b.balance x) ∧
    b'.totalBalance + amt = b.totalBalance := by
  by_cases hlt : b.balance a < amt
  · simp [BalanceTracker.debit, hlt] at h
  · simp only [BalanceTracker.debit, if_neg hlt, Except.ok.injEq] at h
    subst h
    have hbal : b.balance a = lookupBal b.entries a := rfl
    have hsum := sum_setBal b.entries a (b.balance a - amt)
    have hself := lookup_setBal_self b.entries a (b.balance a - amt)
    refine ⟨by omega, ?_, ?_, ?_⟩
    · show lookupBal (setBal b.entries a (b.balance a - amt)) a + amt
        = b.balance a
      rw [hself]
      omega
    · intro x hx
      exact lookup_setBal_ne b.entries a (b.balance a - amt) x hx
    · show ((setBal b.entries a (b.balance a - amt)).map (fun p => p.2)).sum
        + amt = (b.entries.map (fun p => p.2)).sum
      omega

theorem transfer_error (b : BalanceTracker) (src dst : String) (amt : Nat)
    (h : b.balance src < amt) :
    b.transfer src dst amt = .error .InsufficientBalance := by
  simp [BalanceTracker.transfer, debit_error _ _ _ h]

theorem transfer_ok (b : BalanceTracker) (src dst : String) (amt : Nat)
    (b' : BalanceTracker) (h : b.transfer src dst amt = .ok b') :
    (∀ x, x ≠ src → x ≠ dst → b'.balance x = b.balance x) ∧
    (src ≠ dst →
      b'.balance src + amt = b.balance src ∧
      b'.balance dst = b.balance dst + amt) ∧
    b'.totalBalance = b.totalBalance := by
  rcases hd : b.debit src amt with e | bd
  · simp [BalanceTracker.transfer, hd] at h
  · simp [BalanceTracker.transfer, hd] at h
    subst h
    obtain ⟨hle, hsrc, hoth, hsum⟩ := debit_ok b src amt bd hd
    refine ⟨?_, ?_, ?_⟩
    · intro x hs hdst
      rw [balance_credit_ne _ _ _ _ hdst, hoth x hs]
    · intro hne
      constructor
      · rw [balance_credit_ne _ _ _ _ hne]
        omega
      · rw [balance_credit_self, hoth dst (fun h => hne h.symm)]
    · rw [totalBalance_credit]
      omega

/-! ### SupplyTracker lemmas -/

theorem mint_ok_eq (s : SupplyTracker) (amt : Nat) (s' : SupplyTracker)
    (h : s.mint amt = .ok s') :
    s'.total_minted = s.total_minted + amt ∧
    s'.total_burned = s.total_burned ∧
    s'.supply_cap = s.supply_cap := by
  by_cases hc : s.supply_cap < s.total_minted + amt
  · simp [SupplyTracker.mint, hc] at h
  · simp only [SupplyTracker.mint, if_neg hc, Except.ok.injEq] at h
    subst h
    exact ⟨rfl, rfl, rfl⟩

/-! ### apply_tx lemmas -/

theorem apply_tx_frame (st : Ledger) (tx : Transaction) (st' : Ledger)
    (h : st.apply_tx tx = .ok st') :
    st'.rows = st.rows ∧ st'.tx_ids = st.tx_ids := by
  cases htt : tx.tx_type <;> simp only [Ledger.apply_tx, htt] at h
  case Mint =>
    cases hm : st.supply.mint tx.amount <;> simp [hm] at h <;>
      simp [← h]
  case Burn =>
    cases hd : st.balances.debit tx.fromAddr tx.amount <;> simp [hd] at h <;>
      simp [← h]
  all_goals
    by_cases hsys : tx.fromAddr = systemAddr
    · simp only [if_pos hsys] at h
      cases hm : st.supply.mint tx.amount <;> simp [hm] at h <;> simp [← h]
    · simp only [if_neg hsys] at h
      cases htr : st.balances.transfer tx.fromAddr tx.toAddr tx.amount <;>
        simp [htr] at h <;> simp [← h]

theorem mint_error_kind (s : SupplyTracker) (amt : Nat) (e : LedgerError)
    (h : s.mint amt = .error e) : e = .SupplyCapExceeded := by
  by_cases hc : s.supply_cap < s.total_minted + amt <;>
    simp [SupplyTracker.mint, hc] at h
  exact h.symm

theorem debit_error_kind (b : BalanceTracker) (a : String) (amt : Nat)
    (e : LedgerError) (h : b.debit a amt = .error e) :
    e = .InsufficientBalance := by
  by_cases hlt : b.balance a < amt <;> simp [BalanceTracker.debit, hlt] at h
  exact h.symm

theorem transfer_error_kind (b : BalanceTracker) (src dst : String) (amt : Nat)
    (e : LedgerError) (h : b.transfer src dst amt = .error e) :
    e = .InsufficientBalance := by
  rcases hd : b.debit src amt with e2 | b' <;>
    simp [BalanceTracker.transfer, hd] at h
  exact h ▸ debit_error_kind b src amt e2 hd

theorem apply_tx_error_kind (st : Ledger) (tx : Transaction) (e : LedgerError)
    (h : st.apply_tx tx = .error e) :
    e = .InsufficientBalance ∨ e = .SupplyCapExceeded := by
  cases htt : tx.tx_type <;> simp only [Ledger.apply_tx, htt] at h
  case Mint =>
    rcases hm : st.supply.mint tx.amount with e2 | s <;> simp [hm] at h
    exact Or.inr (h ▸ mint_error_kind _ _ _ hm)
  case Burn =>
    rcases hd : st.balances.debit tx.fromAddr tx.amount with e2 | b <;>
      simp [hd] at h
    exact Or.inl (h ▸ debit_error_kind _ _ _ _ hd)
  all_goals
    by_cases hsys : tx.fromAddr = systemAddr
  all_goals simp only [if_pos, if_neg, hsys] at h
  all_goals first
  | (rcases hm : st.supply.mint tx.amount with e2 | s <;> simp [hm, hsys] at h
     exact Or.inr (h ▸ mint_error_kind _ _ _ hm))
  | (rcases htr : st.balances.transfer tx.fromAddr tx.toAddr tx.amount
       with e2 | b <;> simp [htr, hsys] at h
     exact Or.inl (h ▸ transfer_error_kind _ _ _ _ _ htr))

theorem apply_tx_supplyInv (st : Ledger) (tx : Transaction) (st' : Ledger)
    (hinv : supplyInv st) (h : st.apply_tx tx = .ok st') : supplyInv st' := by
  unfold supplyInv at *
  cases htt : tx.tx_type <;> simp only [Ledger.apply_tx, htt] at h
  case Mint =>
    rcases hm : st.supply.mint tx.amount with e | s <;> simp [hm] at h
    obtain ⟨h1, h2, _⟩ := mint_ok_eq _ _ _ hm
    subst h
    simp only [totalBalance_credit, h1, h2]
    push_cast
    omega
  case Burn =>
    rcases hd : st.balances.debit tx.fromAddr tx.amount with e | b <;>
      simp [hd] at h
    obtain ⟨_, _, _, hsum⟩ := debit_ok _ _ _ _ hd
    subst h
    simp only [SupplyTracker.burn]
    push_cast
    omega
  all_goals
    by_cases hsys : tx.fromAddr = systemAddr
  all_goals simp only [if_pos, if_neg, hsys] at h
  all_goals first
  | (rcases hm : st.supply.mint tx.amount with e | s <;> simp [hm, hsys] at h
     obtain ⟨h1, h2, _⟩ := mint_ok_eq _ _ _ hm
     subst h
     simp only [totalBalance_credit, h1, h2]
     push_cast
     omega)
  | (rcases htr : st.balances.transfer tx.fromAddr tx.toAddr tx.amount
       with e | b <;> simp [htr, hsys] at h
     obtain ⟨_, _, hsum⟩ := transfer_ok _ _ _ _ _ htr
     subst h
     simp only [hsum]
     omega)

theorem append_fst_supplyInv (c : Crypto) (pf : Bool) (st : Ledger)
    (tx : Transaction) (hinv : supplyInv st) :
    supplyInv (Ledger.append c pf st tx).1 := by
  unfold Ledger.append
  rcases hs : Ledger.sigCheck c tx with e | u
  · exact hinv
  · simp only
    by_cases hm : tx.tx_id ∈ st.tx_ids
    · simp only [if_pos hm]
      exact hinv
    · simp only [if_neg hm]
      rcases ha : st.apply_tx tx with e | st'
      · exact hinv
      · have hinv' := apply_tx_supplyInv st tx st' hinv ha
        cases pf
        · simp only [Bool.false_eq_true, if_false]
          exact hinv'
        · simp only [if_true]
          exact hinv'

theorem runAppends_supplyInv (c : Crypto) (steps : List (Transaction × Bool))
    (st : Ledger) (hinv : supplyInv st) :
    supplyInv (Ledger.runAppends c st steps) := by
  induction steps generalizing st with
  | nil => exact hinv
  | cons step rest ih =>
    obtain ⟨tx, pf⟩ := step
    exact ih _ (append_fst_supplyInv c pf st tx hinv)

theorem supplyInv_empty : supplyInv Ledger.empty := by
  simp [supplyInv, Ledger.empty, Ledger.fresh, SupplyTracker.default_config,
    BalanceTracker.new, BalanceTracker.totalBalance]

/-! ### Replay invariance machinery -/

theorem decode_encode (tx : Transaction) : decodeRow (encodeRow tx) = tx := by
  obtain ⟨i, t, f, o, a, m, ts, sg, pk⟩ := tx
  cases t <;> rfl

theorem apply_tx_setRows (st : Ledger) (rows : List Row) (tx : Transaction) :
    (st.setRows rows).apply_tx tx
      = (st.apply_tx tx).map (fun s => s.setRows rows) := by
  cases htt : tx.tx_type <;>
    simp only [Ledger.apply_tx, htt, Ledger.setRows]
  case Mint =>
    cases hm : st.supply.mint tx.amount <;> simp [hm, Except.map]
  case Burn =>
    cases hd : st.balances.debit tx.fromAddr tx.amount <;>
      simp [hd, Except.map]
  all_goals
    by_cases hsys : tx.fromAddr = systemAddr
  all_goals simp only [if_pos, if_neg, hsys]
  all_goals first
  | (cases hm : st.supply.mint tx.amount <;> simp [hm, Except.map] <;> done)
  | (cases htr : st.balances.transfer tx.fromAddr tx.toAddr tx.amount <;>
       simp [htr, Except.map])

theorem replayAux_setRows (st : Ledger) (rows : List Row)
    (l : List Transaction) :
    (st.setRows rows).replayAux l
      = (st.replayAux l).map (fun s => s.setRows rows) := by
  induction l generalizing st with
  | nil => rfl
  | cons tx rest ih =>
    simp only [Ledger.replayAux, apply_tx_setRows]
    cases ha : st.apply_tx tx with
    | error e => simp [Except.map]
    | ok st' =>
      simp only [Except.map]
      exact ih { st' with tx_ids := st'.tx_ids ++ [tx.tx_id] }

theorem replayAux_concat (st : Ledger) (l1 l2 : List Transaction) :
    st.replayAux (l1 ++ l2)
      = match st.replayAux l1 with
        | .error e => .error e
        | .ok s => s.replayAux l2 := by
  induction l1 generalizing st with
  | nil => simp [Ledger.replayAux]
  | cons tx rest ih =>
    simp only [List.cons_append, Ledger.replayAux]
    cases ha : st.apply_tx tx with
    | error e => rfl
    | ok st' => exact ih _

theorem replayInv_empty : replayInv Ledger.empty := rfl

theorem openDb_step (rows : List Row) (st stA : Ledger) (tx : Transaction)
    (hopen : Ledger.openDb rows = .ok st)
    (ha : st.apply_tx tx = .ok stA) :
    Ledger.openDb (rows ++ [encodeRow tx])
      = .ok { stA with rows := rows ++ [encodeRow tx],
                       tx_ids := stA.tx_ids ++ [tx.tx_id] } := by
  have hopen' : (Ledger.fresh rows).replayAux (rows.map decodeRow)
      = .ok st := hopen
  have hmap : (rows ++ [encodeRow tx]).map decodeRow
      = rows.map decodeRow ++ [tx] := by
    simp [decode_encode]
  have hset : Ledger.fresh (rows ++ [encodeRow tx])
      = (Ledger.fresh rows).setRows (rows ++ [encodeRow tx]) := rfl
  show (Ledger.fresh (rows ++ [encodeRow tx])).replayAux
      ((rows ++ [encodeRow tx]).map decodeRow) = _
  rw [hmap, hset, replayAux_setRows, replayAux_concat, hopen']
  simp only [Ledger.replayAux, ha]
  simp [Except.map, Ledger.setRows]

theorem append_replayInv (c : Crypto) (st : Ledger) (tx : Transaction)
    (st' : Ledger) (hinv : replayInv st)
    (h : Ledger.append c false st tx = (st', .ok ())) : replayInv st' := by
  unfold Ledger.append at h
  rcases hs : Ledger.sigCheck c tx with e | u <;> rw [hs] at h
  · simp at h
  by_cases hm : tx.tx_id ∈ st.tx_ids
  · rw [if_pos hm] at h
    simp at h
  rw [if_neg hm] at h
  rcases ha : st.apply_tx tx with e | stA <;> rw [ha] at h
  · simp at h
  obtain ⟨hrows, hids⟩ := apply_tx_frame st tx stA ha
  have hstep := openDb_step st.rows st stA tx hinv ha
  have hst' : st' = { stA with rows := stA.rows ++ [encodeRow tx],
                               tx_ids := stA.tx_ids ++ [tx.tx_id] } := by
    simp only [Bool.false_eq_true, if_false, Prod.mk.injEq] at h
    exact h.1.symm
  subst hst'
  unfold replayInv
  simp only [hrows]
  exact hstep

theorem appendStar_replayInv (c : Crypto) (txs : List Transaction)
    (st0 st : Ledger) (hinv : replayInv st0)
    (h : Ledger.appendStar c st0 txs = some st) : replayInv st := by
  induction txs generalizing st0 with
  | nil =>
    simp [Ledger.appendStar] at h
    exact h ▸ hinv
  | cons tx rest ih =>
    simp only [Ledger.appendStar] at h
    rcases hap : Ledger.append c false st0 tx with ⟨st1, r⟩
    rcases r with e | u
    · rw [hap] at h
      simp at h
    · obtain ⟨⟩ := u
      rw [hap] at h
      exact ih st1 (append_replayInv c st0 tx st1 hinv hap) h

/-! ### sigCheck and append lemmas -/

theorem sigCheck_system (c : Crypto) (tx : Transaction)
    (h : tx.fromAddr = systemAddr) : Ledger.sigCheck c tx = .ok () := by
  simp [Ledger.sigCheck, h]

theorem sigCheck_badPubkeyHex (c : Crypto) (tx : Transaction)
    (hf : tx.fromAddr ≠ systemAddr) (hp : hexDecode tx.pubkey = none) :
    Ledger.sigCheck c tx = .error (.InvalidTransaction "Invalid hex in pubkey") := by
  simp [Ledger.sigCheck, hf, hp]

theorem sigCheck_badAddr (c : Crypto) (tx : Transaction) (pb : List Nat)
    (hf : tx.fromAddr ≠ systemAddr) (hp : hexDecode tx.pubkey = some pb)
    (hne : c.sha256Hex pb ≠ tx.fromAddr) :
    Ledger.sigCheck c tx = .error .InvalidSignature := by
  simp [Ledger.sigCheck, hf, hp, hne]

theorem sigCheck_badSigHex (c : Crypto) (tx : Transaction) (pb : List Nat)
    (hf : tx.fromAddr ≠ systemAddr) (hp : hexDecode tx.pubkey = some pb)
    (heq : c.sha256Hex pb = tx.fromAddr) (hs : hexDecode tx.signature = none) :
    Ledger.sigCheck c tx = .error (.InvalidTransaction "Invalid hex in signature") := by
  simp [Ledger.sigCheck, hf, hp, heq, hs]

theorem sigCheck_badVerify (c : Crypto) (tx : Transaction) (pb sb : List Nat)
    (hf : tx.fromAddr ≠ systemAddr) (hp : hexDecode tx.pubkey = some pb)
    (heq : c.sha256Hex pb = tx.fromAddr) (hs : hexDecode tx.signature = some sb)
    (hv : c.edVerify pb tx.signable_bytes sb = false) :
    Ledger.sigCheck c tx = .error .InvalidSignature := by
  simp [Ledger.sigCheck, hf, hp, heq, hs, hv]

theorem sigCheck_ok_of_valid (c : Crypto) (tx : Transaction) (pb sb : List Nat)
    (hp : hexDecode tx.pubkey = some pb)
    (heq : c.sha256Hex pb = tx.fromAddr) (hs : hexDecode tx.signature = some sb)
    (hv : c.edVerify pb tx.signable_bytes sb = true) :
    Ledger.sigCheck c tx = .ok () := by
  by_cases hf : tx.fromAddr = systemAddr
  · simp [Ledger.sigCheck, hf]
  · simp [Ledger.sigCheck, hf, hp, heq, hs, hv]

theorem append_sig_error (c : Crypto) (pf : Bool) (st : Ledger)
    (tx : Transaction) (e : LedgerError)
    (h : Ledger.sigCheck c tx = .error e) :
    Ledger.append c pf st tx = (st, .error e) := by
  simp [Ledger.append, h]

theorem append_no_invalid_signature (c : Crypto) (pf : Bool) (st : Ledger)
    (tx : Transaction) (h : Ledger.sigCheck c tx = .ok ()) :
    (Ledger.append c pf st tx).2 ≠ .error .InvalidSignature := by
  unfold Ledger.append
  rw [h]
  by_cases hm : tx.tx_id ∈ st.tx_ids
  · simp [hm]
  · simp only [hm, if_false, reduceIte]
    rcases ha : st.apply_tx tx with e | stA
    · rcases apply_tx_error_kind st tx e ha with he | he <;> simp [he]
    · cases pf <;> simp

theorem append_duplicate (c : Crypto) (pf : Bool) (st : Ledger)
    (tx : Transaction) (h : Ledger.sigCheck c tx = .ok ())
    (hm : tx.tx_id ∈ st.tx_ids) :
    Ledger.append c pf st tx = (st, .error (.DuplicateTransaction tx.tx_id)) := by
  simp [Ledger.append, h, hm]

theorem append_apply_error (c : Crypto) (pf : Bool) (st : Ledger)
    (tx : Transaction) (e : LedgerError)
    (h : Ledger.sigCheck c tx = .ok ())
    (hm : tx.tx_id ∉ st.tx_ids)
    (ha : st.apply_tx tx = .error e) :
    Ledger.append c pf st tx = (st, .error e) := by
  simp [Ledger.append, h, hm, ha]

theorem append_ok_inner (c : Crypto) (pf : Bool) (st : Ledger)
    (tx : Transaction) (st' : Ledger)
    (h : Ledger.append c pf st tx = (st', .ok ())) :
    tx.tx_id ∉ st.tx_ids ∧
    ∃ stA, st.apply_tx tx = .ok stA ∧
      st' = { stA with rows := stA.rows ++ [encodeRow tx],
                       tx_ids := stA.tx_ids ++ [tx.tx_id] } := by
  unfold Ledger.append at h
  rcases hs : Ledger.sigCheck c tx with e | u <;> rw [hs] at h
  · simp at h
  by_cases hm : tx.tx_id ∈ st.tx_ids
  · rw [if_pos hm] at h
    simp at h
  rw [if_neg hm] at h
  rcases ha : st.apply_tx tx with e | stA <;> rw [ha] at h
  · simp at h
  cases pf
  · simp only [Bool.false_eq_true, if_false, Prod.mk.injEq] at h
    exact ⟨hm, stA, rfl, h.1.symm⟩
  · simp at h

theorem apply_tx_burn_insufficient (st : Ledger) (tx : Transaction)
    (htt : tx.tx_type = .Burn)
    (hbal : st.balances.balance tx.fromAddr < tx.amount) :
    st.apply_tx tx = .error .InsufficientBalance := by
  simp [Ledger.apply_tx, htt, debit_error _ _ _ hbal]

theorem apply_tx_transfer_insufficient (st : Ledger) (tx : Transaction)
    (htt : tx.tx_type.isTransferLike = true)
    (hsys : tx.fromAddr ≠ systemAddr)
    (hbal : st.balances.balance tx.fromAddr < tx.amount) :
    st.apply_tx tx = .error .InsufficientBalance := by
  cases h : tx.tx_type <;> rw [h] at htt <;>
    simp [TransactionType.isTransferLike] at htt <;>
    simp [Ledger.apply_tx, h, hsys, transfer_error _ _ _ _ hbal]

theorem apply_tx_transferLike_system (st : Ledger) (tx : Transaction)
    (stA : Ledger) (htt : tx.tx_type.isTransferLike = true)
    (hsys : tx.fromAddr = systemAddr) (h : st.apply_tx tx = .ok stA) :
    stA.supply.total_minted = st.supply.total_minted + tx.amount ∧
    stA.supply.total_burned = st.supply.total_burned ∧
    stA.balances = st.balances.credit tx.toAddr tx.amount := by
  cases hk : tx.tx_type <;> rw [hk] at htt <;>
    simp [TransactionType.isTransferLike] at htt <;>
    simp only [Ledger.apply_tx, hk, if_pos hsys] at h <;>
    rcases hm : st.supply.mint tx.amount with e | s <;> rw [hm] at h <;>
    simp at h <;>
    obtain ⟨h1, h2, _⟩ := mint_ok_eq _ _ _ hm <;>
    subst h <;> exact ⟨h1, h2, rfl⟩

theorem apply_tx_transferLike_user (st : Ledger) (tx : Transaction)
    (stA : Ledger) (htt : tx.tx_type.isTransferLike = true)
    (hsys : tx.fromAddr ≠ systemAddr) (h : st.apply_tx tx = .ok stA) :
    stA.supply = st.supply ∧
    st.balances.transfer tx.fromAddr tx.toAddr tx.amount = .ok stA.balances := by
  cases hk : tx.tx_type <;> rw [hk] at htt <;>
    simp [TransactionType.isTransferLike] at htt <;>
    simp only [Ledger.apply_tx, hk, if_neg hsys] at h <;>
    rcases htr : st.balances.transfer tx.fromAddr tx.toAddr tx.amount
      with e | b <;> rw [htr] at h <;> simp at h <;>
    subst h <;> exact ⟨rfl, rfl⟩

/-! ### The claims -/

/-- C1: the claim states that when the database insert inside
`Ledger.append` fails after the transaction's effects were applied
in-memory, the in-memory state is rolled back to its pre-append value.
The code applies `apply_tx` before the `INSERT` and never undoes it:
appending a 5-unit system mint to the empty ledger with a failing
insert returns `Database` yet leaves alice's in-memory balance at 5 and
total_minted at 5, both 0 beforehand. -/
theorem c1_persist_failure_not_rolled_back :
    (Ledger.append cAlice true Ledger.empty mintTx5).2
      = .error (.Database "insert failed") ∧
    (Ledger.append cAlice true Ledger.empty mintTx5).1.balances.balance
      "alice" = 5 ∧
    (Ledger.append cAlice true Ledger.empty mintTx5).1.supply.total_minted
      = 5 ∧
    Ledger.empty.balances.balance "alice" = 0 ∧
    Ledger.empty.supply.total_minted = 0 :=
  ⟨rfl, rfl, rfl, rfl, rfl⟩

/-- C2: the claim states that a persisted row whose tx_type text fails
to parse makes replay return a fatal error.  The code's `load_all_txs`
instead substitutes `TransactionType::Transfer` (`unwrap_or`) and
`Ledger::open` succeeds: a database holding one row with tx_type text
"bogus" (from "system", amount 5) opens successfully and replays the
row as a system Transfer, minting 5 to alice. -/
theorem c2_replay_swallows_decode_error :
    parseTxType bogusRow.tx_type_str = none ∧
    (decodeRow bogusRow).tx_type = .Transfer ∧
    Ledger.openDb [bogusRow] = .ok stBogus ∧
    stBogus.balances.balance "alice" = 5 :=
  ⟨rfl, rfl, rfl, rfl⟩

/-- C3: for every sequence of successful `Ledger.append` calls starting
from the empty ledger, reopening the resulting database rebuilds
exactly the same in-memory state (balances, supply, seen tx_id set, all
fields). -/
theorem c3_replay_invariance (c : Crypto) (txs : List Transaction)
    (st : Ledger) (h : Ledger.appendStar c Ledger.empty txs = some st) :
    Ledger.openDb st.rows = .ok st :=
  appendStar_replayInv c txs Ledger.empty st replayInv_empty h

/-- C3 witness: appending one concrete mint and reopening the rows
yields the same state. -/
theorem c3_replay_invariance_witness :
    Ledger.openDb stMint5.rows = .ok stMint5 :=
  c3_replay_invariance cAlice [mintTx5] stMint5 rfl

/-- C4: starting from the empty ledger, after any sequence of
`Ledger.append` calls — each with either insert outcome, and whether
each call succeeds or fails — total_minted − total_burned equals the
sum of all balances.  Every state "after a call" is the final state of
a prefix of the step list, so this covers the invariant after each
call. -/
theorem c4_supply_equation (c : Crypto) (steps : List (Transaction × Bool)) :
    supplyInv (Ledger.runAppends c Ledger.empty steps) :=
  runAppends_supplyInv c steps Ledger.empty supplyInv_empty

/-- C5: for a non-system sender whose pubkey and signature fields
decode as hex, `Ledger.append` returns `InvalidSignature` leaving the
state unchanged unless the pubkey hashes to the from-address and the
Ed25519 signature verifies over the signable bytes (and when both hold,
the result is never `InvalidSignature`); for the system sender no
check is consulted: the result does not depend on the crypto oracle at
all and is never `InvalidSignature`. -/
theorem c5_signature_gate (c : Crypto) (pf : Bool) (st : Ledger)
    (tx : Transaction) :
    (∀ pb sb, tx.fromAddr ≠ systemAddr →
       hexDecode tx.pubkey = some pb → hexDecode tx.signature = some sb →
       ((c.sha256Hex pb ≠ tx.fromAddr ∨
           c.edVerify pb tx.signable_bytes sb = false) →
          Ledger.append c pf st tx = (st, .error .InvalidSignature))
       ∧ (c.sha256Hex pb = tx.fromAddr →
          c.edVerify pb tx.signable_bytes sb = true →
          (Ledger.append c pf st tx).2 ≠ .error .InvalidSignature))
    ∧ (tx.fromAddr = systemAddr →
       (∀ c' : Crypto, Ledger.append c' pf st tx = Ledger.append c pf st tx)
       ∧ (Ledger.append c pf st tx).2 ≠ .error .InvalidSignature) := by
  constructor
  · intro pb sb hf hp hs
    constructor
    · intro hor
      by_cases heq : c.sha256Hex pb = tx.fromAddr
      · rcases hor with hne | hvf
        · exact absurd heq hne
        · exact append_sig_error c pf st tx _
            (sigCheck_badVerify c tx pb sb hf hp heq hs hvf)
      · exact append_sig_error c pf st tx _
          (sigCheck_badAddr c tx pb hf hp heq)
    · intro heq hv
      exact append_no_invalid_signature c pf st tx
        (sigCheck_ok_of_valid c tx pb sb hp heq hs hv)
  · intro hsys
    refine ⟨?_, append_no_invalid_signature c pf st tx
      (sigCheck_system c tx hsys)⟩
    intro c'
    unfold Ledger.append
    rw [sigCheck_system c tx hsys, sigCheck_system c' tx hsys]

/-- C5 witness: a concrete non-system transaction whose pubkey does not
hash to its from-address is rejected with `InvalidSignature`, state
unchanged. -/
theorem c5_signature_gate_witness :
    Ledger.append cAlice false Ledger.empty txBadSig
      = (Ledger.empty, .error .InvalidSignature) :=
  ((c5_signature_gate cAlice false Ledger.empty txBadSig).1 [] []
    (by decide) rfl rfl).1 (Or.inl (by decide))

/-- C6: once the signature check passes, a transaction whose tx_id is
already in the seen set is rejected with `DuplicateTransaction`,
leaving the entire state (balances, supply, seen set, persisted rows)
unchanged. -/
theorem c6_duplicate_rejected (c : Crypto) (pf : Bool) (st : Ledger)
    (tx : Transaction) (hsig : Ledger.sigCheck c tx = .ok ())
    (hdup : tx.tx_id ∈ st.tx_ids) :
    Ledger.append c pf st tx
      = (st, .error (.DuplicateTransaction tx.tx_id)) :=
  append_duplicate c pf st tx hsig hdup

/-- C6 witness: two concrete mints with the same tx_id — the second is
rejected with `DuplicateTransaction` and the state is unchanged. -/
theorem c6_duplicate_rejected_witness :
    Ledger.append cAlice false stMint5 mintTx5b
      = (stMint5, .error (.DuplicateTransaction "t1")) :=
  c6_duplicate_rejected cAlice false stMint5 mintTx5b rfl (by decide)

/-- C7: a transaction that would debit an address by more than its
balance — a Burn, or a transfer-like transaction from a non-system
sender — fails with `InsufficientBalance` and leaves the state
unchanged (balances in the model are natural numbers, so no balance is
ever negative). -/
theorem c7_insufficient_balance (c : Crypto) (pf : Bool) (st : Ledger)
    (tx : Transaction) (hsig : Ledger.sigCheck c tx = .ok ())
    (hfresh : tx.tx_id ∉ st.tx_ids)
    (hkind : tx.tx_type = .Burn ∨
      (tx.tx_type.isTransferLike = true ∧ tx.fromAddr ≠ systemAddr))
    (hbal : st.balances.balance tx.fromAddr < tx.amount) :
    Ledger.append c pf st tx = (st, .error .InsufficientBalance) := by
  rcases hkind with hb | ⟨ht, hsys⟩
  · exact append_apply_error c pf st tx _ hsig hfresh
      (apply_tx_burn_insufficient st tx hb hbal)
  · exact append_apply_error c pf st tx _ hsig hfresh
      (apply_tx_transfer_insufficient st tx ht hsys hbal)

/-- C7 witness: from a balance of 500,000, a first transfer of 300,000
succeeds (leaving 200,000) and a second transfer of 300,000 fails with
`InsufficientBalance`. -/
theorem c7_insufficient_balance_witness :
    st200.balances.balance "alice" = 200000 ∧
    Ledger.append cAlice false st200 transferCharlie
      = (st200, .error .InsufficientBalance) :=
  ⟨by decide,
   c7_insufficient_balance cAlice false st200 transferCharlie rfl
     (by decide) (Or.inr ⟨rfl, by decide⟩) (by decide)⟩

/-- C8: for a successful append of a transfer-like transaction
(Transfer, PushFee, PullFee, StorageReward, ChallengeReward,
BandwidthReward): from the system address it mints the amount and
credits the recipient without debiting anyone; from any other address
it debits the sender and credits the recipient with the supply
unchanged. -/
theorem c8_transfer_effects (c : Crypto) (pf : Bool) (st : Ledger)
    (tx : Transaction) (st' : Ledger)
    (ht : tx.tx_type.isTransferLike = true)
    (hok : Ledger.append c pf st tx = (st', .ok ())) :
    (tx.fromAddr = systemAddr →
       st'.supply.total_minted = st.supply.total_minted + tx.amount ∧
       st'.supply.total_burned = st.supply.total_burned ∧
       st'.balances.balance tx.toAddr
         = st.balances.balance tx.toAddr + tx.amount ∧
       ∀ a, a ≠ tx.toAddr →
         st'.balances.balance a = st.balances.balance a)
    ∧ (tx.fromAddr ≠ systemAddr →
       st'.supply = st.supply ∧
       (tx.fromAddr ≠ tx.toAddr →
          st'.balances.balance tx.fromAddr + tx.amount
            = st.balances.balance tx.fromAddr ∧
          st'.balances.balance tx.toAddr
            = st.balances.balance tx.toAddr + tx.amount) ∧
       ∀ a, a ≠ tx.fromAddr → a ≠ tx.toAddr →
         st'.balances.balance a = st.balances.balance a) := by
  obtain ⟨hm, stA, ha, hst'⟩ := append_ok_inner c pf st tx st' hok
  have hbal : st'.balances = stA.balances := by rw [hst']
  have hsup : st'.supply = stA.supply := by rw [hst']
  constructor
  · intro hsys
    obtain ⟨h1, h2, h3⟩ := apply_tx_transferLike_system st tx stA ht hsys ha
    refine ⟨by rw [hsup, h1], by rw [hsup, h2], ?_, ?_⟩
    · rw [hbal, h3, balance_credit_self]
    · intro a hne
      rw [hbal, h3, balance_credit_ne _ _ _ _ hne]
  · intro hsys
    obtain ⟨h1, h2⟩ := apply_tx_transferLike_user st tx stA ht hsys ha
    obtain ⟨hoth, hne, _⟩ := transfer_ok _ _ _ _ _ h2
    refine ⟨by rw [hsup, h1], ?_, ?_⟩
    · intro hft
      obtain ⟨hfrom, hto⟩ := hne hft
      exact ⟨by rw [hbal]; exact hfrom, by rw [hbal]; exact hto⟩
    · intro a ha1 ha2
      rw [hbal]
      exact hoth a ha1 ha2

/-- C8 witness: a concrete 7-unit ChallengeReward from the system
address mints 7 and credits 7 to alice. -/
theorem c8_transfer_effects_witness :
    stReward.supply.total_minted = Ledger.empty.supply.total_minted + 7 ∧
    stReward.balances.balance "alice"
      = Ledger.empty.balances.balance "alice" + 7 :=
  ⟨((c8_transfer_effects cAlice false Ledger.empty rewardTx stReward rfl
      rfl).1 rfl).1,
   ((c8_transfer_effects cAlice false Ledger.empty rewardTx stReward rfl
      rfl).1 rfl).2.2.1⟩

/-- C9 counterexample: the claim states that any non-system transaction
whose pubkey or signature field is not valid hex is rejected with
`InvalidTransaction`, never `InvalidSignature`.  But when the pubkey is
valid hex and merely hashes to a different address, the address check
fires before the signature hex is decoded: this transaction's signature
field "zz" is not valid hex, yet append returns `InvalidSignature`. -/
theorem c9_counterexample_sig_hex_after_addr_check :
    txSigNotHex.fromAddr ≠ systemAddr ∧
    hexDecode txSigNotHex.signature = none ∧
    (Ledger.append cAlice false Ledger.empty txSigNotHex).2
      = .error .InvalidSignature :=
  ⟨by decide, rfl, rfl⟩

/-- C9 (amended): for a non-system sender, a pubkey field that is not
valid hex yields `InvalidTransaction "Invalid hex in pubkey"`, and —
provided the pubkey is valid hex and hashes to the from-address — a
signature field that is not valid hex yields
`InvalidTransaction "Invalid hex in signature"`; in both cases the
state is unchanged. -/
theorem c9_invalid_hex (c : Crypto) (pf : Bool) (st : Ledger)
    (tx : Transaction) (hf : tx.fromAddr ≠ systemAddr) :
    (hexDecode tx.pubkey = none →
       Ledger.append c pf st tx
         = (st, .error (.InvalidTransaction "Invalid hex in pubkey")))
    ∧ (∀ pb, hexDecode tx.pubkey = some pb →
       c.sha256Hex pb = tx.fromAddr → hexDecode tx.signature = none →
       Ledger.append c pf st tx
         = (st, .error (.InvalidTransaction "Invalid hex in signature"))) := by
  constructor
  · intro hp
    exact append_sig_error c pf st tx _ (sigCheck_badPubkeyHex c tx hf hp)
  · intro pb hp heq hs
    exact append_sig_error c pf st tx _
      (sigCheck_badSigHex c tx pb hf hp heq hs)

/-- C9 witness: a concrete transaction whose pubkey field "zz" is not
valid hex is rejected with `InvalidTransaction "Invalid hex in
pubkey"`. -/
theorem c9_invalid_hex_witness :
    Ledger.append cAlice false Ledger.empty txPubNotHex
      = (Ledger.empty, .error (.InvalidTransaction "Invalid hex in pubkey")) :=
  (c9_invalid_hex cAlice false Ledger.empty txPubNotHex (by decide)).1 rfl

/-- C10: two transactions that agree on tx_id, from, to, amount,
timestamp, metadata and pubkey but differ in tx_type have identical
signable bytes, and hence identical hashes under every hash function:
the transaction type is not covered by the signable preimage. -/
theorem c10_signable_ignores_tx_type (tx1 tx2 : Transaction)
    (_h0 : tx1.tx_type ≠ tx2.tx_type)
    (h1 : tx1.tx_id = tx2.tx_id) (h2 : tx1.fromAddr = tx2.fromAddr)
    (h3 : tx1.toAddr = tx2.toAddr) (h4 : tx1.amount = tx2.amount)
    (h5 : tx1.timestamp = tx2.timestamp) (h6 : tx1.metadata = tx2.metadata)
    (h7 : tx1.pubkey = tx2.pubkey) :
    tx1.signable_bytes = tx2.signable_bytes ∧
    ∀ sha, tx1.hash sha = tx2.hash sha := by
  have hsb : tx1.signable_bytes = tx2.signable_bytes := by
    unfold Transaction.signable_bytes
    rw [h1, h2, h3, h4, h5, h6, h7]
  refine ⟨hsb, fun sha => ?_⟩
  unfold Transaction.hash
  rw [hsb]

/-- C10 witness: the concrete mint and the same transaction retyped as
a Burn have identical signable bytes. -/
theorem c10_signable_ignores_tx_type_witness :
    mintTx5.signable_bytes = mintTx5AsBurn.signable_bytes :=
  (c10_signable_ignores_tx_type mintTx5 mintTx5AsBurn (by decide) rfl rfl
    rfl rfl rfl rfl rfl).1
